import Mathlib

/-!
Shallow embedding of the connection core of the go-smb2 client
(src/conn.go and src/initiator_krb5.go) together with theorems that
check the specification claims about it.

Conventions of the embedding:
- machine integers are naturals with an explicit modulus where Go
  overflow or truncating conversion matters (uint64 arithmetic is
  mod 2 ^ 64, conversion to uint16 is mod 2 ^ 16);
- byte strings are lists of naturals;
- fallible Go code returns Option or Except, and a Go runtime panic
  (out-of-range slice or index) is modelled as none;
- the Go map inside outstandingRequests is an association list with at
  most one binding per key, and channels are modelled by a closed flag
  plus the list of values delivered so far;
- functions of the repository that live outside the two embedded files
  (wire codecs, the credit account, SHA-512, signing and encryption)
  are either abstracted as function parameters or modelled from the
  specification, as marked in their doc comments.
-/

namespace Smb2

/-- Byte strings are lists of naturals, each entry one byte. -/
abbrev Bytes := List Nat

/-- Error taxonomy of the connection core (conn.go): the variants that
the embedded functions can produce. -/
inductive Err where
  | invalidResponse (msg : String)
  | internal (msg : String)
  | transport
  | contextCancelled
  deriving DecidableEq, Repr

/-- Embeds the requestResponse record (conn.go): the result channel
recv is modelled by a closed flag plus the list of payloads delivered. -/
structure RequestResponse where
  msgId : Nat
  asyncId : Nat
  creditRequest : Nat
  pkt : Bytes
  recvClosed : Bool
  recvBuf : List Bytes
  err : Option Err
  deriving DecidableEq, Repr

/-- Embeds the outstandingRequests table (conn.go): the Go map from
message id to record, as an association list with unique keys. -/
abbrev OutstandingRequests := List (Nat × RequestResponse)

namespace OutstandingRequests

/-- Embeds outstandingRequests.pop (conn.go lines 252-264): look the
message id up; when present, delete the binding and return the record. -/
def pop (r : OutstandingRequests) (msgId : Nat) :
    Option RequestResponse × OutstandingRequests :=
  match List.lookup msgId r with
  | none => (none, r)
  | some rr => (some rr, r.eraseP (fun kv => kv.1 == msgId))

/-- Embeds outstandingRequests.set (conn.go lines 266-271): Go map
assignment, replacing any existing binding for the message id. -/
def set (r : OutstandingRequests) (msgId : Nat) (rr : RequestResponse) :
    OutstandingRequests :=
  (msgId, rr) :: r.eraseP (fun kv => kv.1 == msgId)

/-- Embeds outstandingRequests.shutdown (conn.go lines 273-281): every
record gets err stored in its error slot and its result channel closed.
The loop does not delete any entry from the map. -/
def shutdown (r : OutstandingRequests) (e : Err) : OutstandingRequests :=
  r.map (fun kv => (kv.1, { kv.2 with err := some e, recvClosed := true }))

end OutstandingRequests

/-- Lookup after shutdown: the binding is still present, with the error
stored and the channel closed. -/
theorem lookup_shutdown (r : OutstandingRequests) (e : Err) (msgId : Nat) :
    List.lookup msgId (r.shutdown e)
      = (List.lookup msgId r).map
          (fun rr => { rr with err := some e, recvClosed := true }) := by
  induction r with
  | nil => rfl
  | cons kv rest ih =>
    cases h : (msgId == kv.1)
    · simp only [OutstandingRequests.shutdown, List.lookup, List.map_cons, h]
      simpa [OutstandingRequests.shutdown] using ih
    · simp [OutstandingRequests.shutdown, List.lookup, h]

/-- Embeds KerberosInitiator.sessionKey (initiator_krb5.go lines 45-53),
padding loop: while fewer than 16 bytes are present, append a zero byte.
The fuel argument bounds the loop, which in the Go code runs after the
initial slice already has length 16. -/
def sessionKeyPadLoop : Nat → Bytes → Bytes
  | 0, b => b
  | n + 1, b => if b.length < 16 then sessionKeyPadLoop n (b ++ [0]) else b

/-- Embeds KerberosInitiator.sessionKey (initiator_krb5.go lines 45-53).
The Go code evaluates SessionKey()[:16] before its zero-padding loop; on
an underlying key shorter than 16 bytes (capacity equal to length, the
ordinary case for a fresh key slice) that slice expression is out of
range and the Go runtime panics, which is modelled as none. -/
def sessionKey (key : Bytes) : Option Bytes :=
  if 16 ≤ key.length then some (sessionKeyPadLoop 16 (key.take 16)) else none

/-! Constants of the wire format. The spec declares the wire format
bit-exact with [MS-SMB2], so the numeric values of the protocol
constants used by conn.go (defined in the internal wire package, which
is not part of the two embedded files) are the [MS-SMB2] values. -/

/-- Modelled from the spec: session flag, guest session. -/
def SMB2_SESSION_FLAG_IS_GUEST : Nat := 0x0001

/-- Modelled from the spec: session flag, null (anonymous) session. -/
def SMB2_SESSION_FLAG_IS_NULL : Nat := 0x0002

/-- Modelled from the spec: session flag demanding encryption of data. -/
def SMB2_SESSION_FLAG_ENCRYPT_DATA : Nat := 0x0004

/-- Modelled from the spec: share flag demanding encryption of data. -/
def SMB2_SHAREFLAG_ENCRYPT_DATA : Nat := 0x00008000

/-- Modelled from the spec: header flag marking a signed packet. -/
def SMB2_FLAGS_SIGNED : Nat := 0x00000008

/-- Modelled from the spec: capability bit for large MTU support. -/
def SMB2_GLOBAL_CAP_LARGE_MTU : Nat := 0x00000004

/-- Modelled from the spec: negotiate security mode, signing enabled. -/
def SMB2_NEGOTIATE_SIGNING_ENABLED : Nat := 0x0001

/-- Modelled from the spec: negotiate security mode, signing required. -/
def SMB2_NEGOTIATE_SIGNING_REQUIRED : Nat := 0x0002

/-- Modelled from the spec: the NTSTATUS value STATUS_PENDING. -/
def STATUS_PENDING : Nat := 0x00000103

/-! The send path: conn.makeRequestResponse (conn.go lines 412-472),
decomposed into the blocks of the source function. The packet codec,
signing and encryption live outside the embedded files and appear as
function parameters; randomness does not occur on this path. -/

/-- Embeds the mutable request header fields that makeRequestResponse
touches (a Packet header in the wire package). -/
structure Header where
  creditCharge : Nat
  creditRequestResponse : Nat
  messageId : Nat
  sessionId : Nat
  treeId : Nat
  deriving DecidableEq, Repr

/-- Embeds the part of the session state that the send path reads. -/
structure SendSession where
  sessionId : Nat
  sessionFlags : Nat
  deriving DecidableEq, Repr

/-- Embeds the part of a treeConn that the send path reads. -/
structure SendTree where
  treeId : Nat
  shareFlags : Nat
  deriving DecidableEq, Repr

/-- One request handed to makeRequestResponse: the two Go type switches
of the source (on CancelRequest and on SessionSetupRequest) become the
two flags, and the header is the result of req.Header(). -/
structure SendInput where
  isCancel : Bool
  isSessionSetup : Bool
  header : Header
  deriving DecidableEq, Repr

/-- Environment of a send: the current session and tree pointers, the
credit-account opening value read by the source, and the encode, sign
and encrypt routines that live outside the embedded files. -/
structure SendEnv where
  session : Option SendSession
  tc : Option SendTree
  opening : Nat
  encode : Header → Bytes
  sign : Bytes → Bytes
  encrypt : Bytes → Except String Bytes

/-- Connection state that makeRequestResponse mutates. -/
structure MRRState where
  sequenceWindow : Nat
  outstanding : OutstandingRequests
  deriving DecidableEq, Repr

/-- Embeds conn.go lines 415-428: for a CancelRequest the message id
stays zero and the sequence window is untouched; otherwise the message
id is the current sequence window, the window advances by the credit
charge (uint64 arithmetic), and the CreditRequestResponse field is
defaulted to the charge and increased by the account opening (uint16
arithmetic). Returns the message id, the new window and the header. -/
def mrrAssign (st : MRRState) (opening : Nat) (inp : SendInput) :
    Nat × Nat × Header :=
  if inp.isCancel then
    (0, st.sequenceWindow, inp.header)
  else
    let creditCharge := inp.header.creditCharge
    let seqW := (st.sequenceWindow + creditCharge) % 2 ^ 64
    let crr :=
      if inp.header.creditRequestResponse = 0 then creditCharge
      else inp.header.creditRequestResponse
    let crr := (crr + opening) % 2 ^ 16
    (st.sequenceWindow, seqW, { inp.header with creditRequestResponse := crr })

/-- Embeds conn.go lines 432-440: when a session is active, its id is
written into the header, and the tree id as well when a tree connection
is given. -/
def mrrSessionHeader (env : SendEnv) (hdr : Header) : Header :=
  match env.session with
  | none => hdr
  | some s =>
    let hdr := { hdr with sessionId := s.sessionId }
    match env.tc with
    | none => hdr
    | some tc => { hdr with treeId := tc.treeId }

/-- Embeds conn.go lines 442-459: encode the request, then, when a
session is active and the request is not a SessionSetupRequest, encrypt
the packet when the session or share flags demand it (an encryption
failure becomes an InternalError), or sign it when the session is
neither guest nor null. -/
def mrrPacket (env : SendEnv) (inp : SendInput) (hdr : Header) :
    Except Err Bytes :=
  let pkt := env.encode hdr
  match env.session with
  | none => .ok pkt
  | some s =>
    if inp.isSessionSetup then .ok pkt
    else if (s.sessionFlags &&& SMB2_SESSION_FLAG_ENCRYPT_DATA != 0
        || (match env.tc with
            | some tc => tc.shareFlags &&& SMB2_SHAREFLAG_ENCRYPT_DATA != 0
            | none => false)) then
      match env.encrypt pkt with
      | .ok p => .ok p
      | .error e => .error (.internal e)
    else if s.sessionFlags
        &&& (SMB2_SESSION_FLAG_IS_GUEST ||| SMB2_SESSION_FLAG_IS_NULL) = 0 then
      .ok (env.sign pkt)
    else .ok pkt

/-- Embeds conn.makeRequestResponse (conn.go lines 412-472). The
returned triple is the mutated connection state, the message id that
was assigned to the header, and the request record (or the error of a
failed encryption, in which case the source returns before inserting
anything into the outstanding table, with the sequence window already
advanced). -/
def makeRequestResponse (st : MRRState) (env : SendEnv) (inp : SendInput) :
    MRRState × Nat × Except Err RequestResponse :=
  let a := mrrAssign st env.opening inp
  let msgId := a.1
  let seqW := a.2.1
  let hdr := { a.2.2 with messageId := msgId }
  let hdr := mrrSessionHeader env hdr
  match mrrPacket env inp hdr with
  | .error e => ({ st with sequenceWindow := seqW }, msgId, .error e)
  | .ok pkt =>
    let rr : RequestResponse :=
      { msgId := msgId, asyncId := 0, creditRequest := hdr.creditRequestResponse,
        pkt := pkt, recvClosed := false, recvBuf := [], err := none }
    ({ sequenceWindow := seqW, outstanding := st.outstanding.set msgId rr },
      msgId, .ok rr)

/-- Runs makeRequestResponse over a list of requests, returning the
final state and, per request in order, the request paired with the
message id assigned to it. -/
def sendRun (st : MRRState) (env : SendEnv) :
    List SendInput → MRRState × List (SendInput × Nat)
  | [] => (st, [])
  | inp :: rest =>
    let r := makeRequestResponse st env inp
    let f := sendRun r.1 env rest
    (f.1, (inp, r.2.1) :: f.2)

/-- The message ids assigned to the non-cancel requests of a send run,
in order. -/
def nonCancelIds : List (SendInput × Nat) → List Nat
  | [] => []
  | (inp, i) :: rest =>
    if inp.isCancel then nonCancelIds rest else i :: nonCancelIds rest

/-- The sum of the CreditCharge header values of the non-cancel
requests of a list. -/
def nonCancelCharges : List SendInput → Nat
  | [] => 0
  | inp :: rest =>
    (if inp.isCancel then 0 else inp.header.creditCharge) + nonCancelCharges rest

/-! The receiver: the compound-chain split of conn.runReciever
(conn.go lines 558-583), conn.tryVerify (lines 709-737) and
conn.tryHandle (lines 739-763). -/

/-- Modelled from the spec: PacketCodec(pkt).NextCommand() of the wire
package (not among the embedded files). Per the spec the 64-byte SMB2
header carries NextCommand as the little-endian uint32 at byte offsets
20..23; reading it from a buffer shorter than 24 bytes is an
out-of-range access, modelled as none. -/
def nextCommand (pkt : Bytes) : Option Nat :=
  if 24 ≤ pkt.length then
    some (pkt.getD 20 0 + 256 * pkt.getD 21 0
      + 65536 * pkt.getD 22 0 + 16777216 * pkt.getD 23 0)
  else none

/-- Embeds the compound-chain split loop of conn.runReciever (conn.go
lines 558-583), keeping only how the buffer is cut: per iteration, when
NextCommand is nonzero the source executes pkt, next = pkt[:off],
pkt[off:] and continues with next unless next is nil; next is nil only
when NextCommand was zero, so an empty next (off equal to the length)
is processed as a further element. A Go slice panic (off beyond the
buffer, or a field read beyond the element) is modelled as none; the
result lists the elements dispatched, in order. The fuel argument only
bounds the recursion and is never exhausted when it starts above the
buffer length, since every continuing step consumes at least one byte. -/
def splitChainAux : Nat → Bytes → Option (List Bytes)
  | 0, _ => none
  | fuel + 1, pkt =>
    match nextCommand pkt with
    | none => none
    | some off =>
      if off = 0 then some [pkt]
      else if off ≤ pkt.length then
        match splitChainAux fuel (pkt.drop off) with
        | none => none
        | some rest => some (pkt.take off :: rest)
      else none

/-- The compound-chain split of one received frame, with enough fuel. -/
def splitChain (pkt : Bytes) : Option (List Bytes) :=
  splitChainAux (pkt.length + 1) pkt

/-- Embeds the header fields of one received packet that tryVerify and
tryHandle read through the wire codec. -/
structure InPacket where
  msgId : Nat
  flags : Nat
  sessionId : Nat
  status : Nat
  creditResponse : Nat
  asyncId : Nat
  raw : Bytes
  deriving DecidableEq, Repr

/-- Embeds conn.tryVerify (conn.go lines 709-737). The signature check
session.verify(pkt) lives outside the embedded files and is passed in
as the verifies flag. Returns the error the source returns, none for
nil. -/
def tryVerify (session : Option SendSession) (requireSigning : Bool)
    (p : InPacket) (verifies : Bool) (isEncrypted : Bool) : Option Err :=
  if p.msgId ≠ 0xFFFFFFFFFFFFFFFF then
    if p.flags &&& SMB2_FLAGS_SIGNED ≠ 0 then
      match session with
      | none => some (.invalidResponse "unknown session id returned")
      | some s =>
        if s.sessionId ≠ p.sessionId then
          some (.invalidResponse "unknown session id returned")
        else if verifies = false then
          some (.invalidResponse "unverified packet returned")
        else none
    else if requireSigning ∧ isEncrypted = false then
      match session with
      | none => none
      | some s =>
        if s.sessionFlags
            &&& (SMB2_SESSION_FLAG_IS_GUEST ||| SMB2_SESSION_FLAG_IS_NULL) = 0
          ∧ s.sessionId = p.sessionId then
          some (.invalidResponse "signing required")
        else none
    else none
  else none

/-- State that conn.tryHandle mutates, plus observation logs: charges
records every account.charge call in order with its two arguments,
delivered the payloads sent to result channels, and failed the records
closed with an error stored. -/
structure HandleState where
  outstanding : OutstandingRequests
  charges : List (Nat × Nat)
  delivered : List (Nat × Bytes)
  failed : List (Nat × Err)
  deriving DecidableEq, Repr

/-- Embeds conn.tryHandle (conn.go lines 739-763): pop the record for
the message id (unknown id is an error returned to the receiver, which
logs and drops); with a verify or framing error, store it on the record
and close the channel; on STATUS_PENDING, store the async id, charge
the account and re-insert the record; otherwise charge the account and
deliver the payload. -/
def tryHandle (st : HandleState) (p : InPacket) (e : Option Err) :
    HandleState × Option Err :=
  match st.outstanding.pop p.msgId with
  | (none, _) => (st, some (.invalidResponse "unknown message id returned"))
  | (some rr, tbl) =>
    match e with
    | some err =>
      ({ st with outstanding := tbl, failed := st.failed ++ [(p.msgId, err)] },
        none)
    | none =>
      if p.status = STATUS_PENDING then
        let rr := { rr with asyncId := p.asyncId }
        ({ st with
            outstanding := tbl.set p.msgId rr,
            charges := st.charges ++ [(p.creditResponse, rr.creditRequest)] },
          none)
      else
        ({ st with
            outstanding := tbl,
            charges := st.charges ++ [(p.creditResponse, rr.creditRequest)],
            delivered := st.delivered ++ [(p.msgId, p.raw)] },
          none)

/-! Credits: conn.loanCredit (conn.go lines 343-359). The credit
account itself lives outside the embedded files; its loan method is a
function parameter. -/

/-- Embeds the credit-charge computation of conn.loanCredit (conn.go
lines 344-348): one credit without the large-MTU capability, otherwise
uint16((payloadSize-1)/65536 + 1), a truncating uint16 conversion. -/
def requestedCreditCharge (capabilities : Nat) (payloadSize : Nat) : Nat :=
  if capabilities &&& SMB2_GLOBAL_CAP_LARGE_MTU = 0 then 1
  else ((payloadSize - 1) / 65536 + 1) % 2 ^ 16

/-- Embeds conn.loanCredit (conn.go lines 343-359): request the
computed charge from the account; on a complete loan the granted
payload size is the requested payload size, otherwise 65536 times the
granted credit count. The account loan is a function parameter; its
error is returned as is. -/
def loanCredit (capabilities : Nat) (payloadSize : Nat)
    (loan : Nat → Except Err (Nat × Bool)) : Except Err (Nat × Nat) :=
  match loan (requestedCreditCharge capabilities payloadSize) with
  | .error e => .error e
  | .ok (creditCharge, isComplete) =>
    if isComplete then .ok (creditCharge, payloadSize)
    else .ok (creditCharge, 65536 * creditCharge)

/-! The negotiator: Negotiator.makeRequest (conn.go lines 24-88) and
Negotiator.negotiate (conn.go lines 90-229). Wire decoding is
abstracted by handing negotiate already decoded responses; SHA-512 and
packet encoding are function parameters. -/

/-- Modelled from the spec: the dialect constants of the wire package.
UnknownSMB is the zero value, SMB2 the wildcard 2.??? marker. -/
def UnknownSMB : Nat := 0x0000

/-- Modelled from the spec: the SMB 2.0.2 dialect. -/
def SMB202 : Nat := 0x0202

/-- Modelled from the spec: the SMB 2.1 dialect. -/
def SMB210 : Nat := 0x0210

/-- Modelled from the spec: the SMB 3.0 dialect. -/
def SMB300 : Nat := 0x0300

/-- Modelled from the spec: the SMB 3.0.2 dialect. -/
def SMB302 : Nat := 0x0302

/-- Modelled from the spec: the SMB 3.1.1 dialect. -/
def SMB311 : Nat := 0x0311

/-- Modelled from the spec: the wildcard SMB 2.??? dialect marker. -/
def SMB2 : Nat := 0x02FF

/-- Modelled from the spec: the SHA-512 preauth hash algorithm id. -/
def SHA512 : Nat := 0x0001

/-- Modelled from the spec: the AES-128-CCM cipher id. -/
def AES128CCM : Nat := 0x0001

/-- Modelled from the spec: the AES-128-GCM cipher id. -/
def AES128GCM : Nat := 0x0002

/-- Modelled from the spec: clientDialects of feature.go (not among the
embedded files), the dialect list offered by default. -/
def clientDialects : List Nat := [SMB202, SMB210, SMB300, SMB302, SMB311]

/-- Modelled from the spec: clientHashAlgorithms of feature.go, the
offered preauth-integrity hash algorithms. -/
def clientHashAlgorithms : List Nat := [SHA512]

/-- Modelled from the spec: clientCiphers of feature.go, the offered
ciphers in preference order. -/
def clientCiphers : List Nat := [AES128CCM, AES128GCM]

/-- Embeds a negotiate context of the request (HashContext or
CipherContext in conn.makeRequest). -/
inductive ReqContext where
  | hash (hashAlgorithms : List Nat) (hashSalt : Bytes)
  | cipher (ciphers : List Nat)
  deriving DecidableEq, Repr

/-- Embeds the NegotiateRequest fields that conn.go sets. -/
structure NegotiateRequest where
  securityMode : Nat
  capabilities : Nat
  clientGuid : Bytes
  dialects : List Nat
  contexts : List ReqContext
  creditCharge : Nat
  deriving DecidableEq, Repr

/-- Embeds Negotiator.makeRequest (conn.go lines 24-88). The random
client GUID and hash salt are inputs (crypto/rand draws); the
clientCapabilities constant of feature.go is an input as well. A
specified dialect outside the known five is an InternalError. -/
def makeRequest (requireMessageSigning : Bool) (specifiedDialect : Nat)
    (clientCapabilities : Nat) (guid salt : Bytes) :
    Except Err NegotiateRequest :=
  let sm :=
    if requireMessageSigning then SMB2_NEGOTIATE_SIGNING_REQUIRED
    else SMB2_NEGOTIATE_SIGNING_ENABLED
  if specifiedDialect ≠ UnknownSMB then
    if specifiedDialect = SMB202 ∨ specifiedDialect = SMB210
        ∨ specifiedDialect = SMB300 ∨ specifiedDialect = SMB302 then
      .ok { securityMode := sm, capabilities := clientCapabilities,
            clientGuid := guid, dialects := [specifiedDialect],
            contexts := [], creditCharge := 0 }
    else if specifiedDialect = SMB311 then
      .ok { securityMode := sm, capabilities := clientCapabilities,
            clientGuid := guid, dialects := [specifiedDialect],
            contexts := [.hash clientHashAlgorithms salt,
                         .cipher clientCiphers],
            creditCharge := 0 }
    else .error (.internal "unsupported dialect specified")
  else
    .ok { securityMode := sm, capabilities := clientCapabilities,
          clientGuid := guid, dialects := clientDialects,
          contexts := [.hash clientHashAlgorithms salt,
                       .cipher clientCiphers],
          creditCharge := 0 }

/-- Modelled from the spec: one already decoded negotiate context of
the response (the context walk and the HashContextData and
CipherContextData decoders live in the wire package). -/
inductive RespContext where
  | hash (hashAlgorithms : List Nat)
  | cipher (ciphers : List Nat)
  | other
  deriving DecidableEq, Repr

/-- Whether a response context is a preauth-integrity hash context. -/
def RespContext.isHash : RespContext → Bool
  | .hash _ => true
  | _ => false

/-- Modelled from the spec: the NegotiateResponse fields conn.go reads
through the wire decoder, plus raw, the undecoded response packet bytes
that feed the preauth hash. valid is the negation of IsInvalid. -/
structure NegotiateResponse where
  valid : Bool
  dialectRevision : Nat
  securityMode : Nat
  capabilities : Nat
  maxTransactSize : Nat
  maxReadSize : Nat
  maxWriteSize : Nat
  contexts : List RespContext
  raw : Bytes
  deriving DecidableEq, Repr

/-- The connection parameters that Negotiator.negotiate establishes
(fields of conn in conn.go). -/
structure ConnInfo where
  requireSigning : Bool
  capabilities : Nat
  dialect : Nat
  maxTransactSize : Nat
  maxReadSize : Nat
  maxWriteSize : Nat
  sequenceWindow : Nat
  preauthIntegrityHashId : Nat
  preauthIntegrityHashValue : Bytes
  cipherId : Nat
  deriving DecidableEq, Repr

/-- Embeds the Go hash.Hash object as used by conn.go: the bytes
written since the last reset. -/
structure GoHash where
  buf : Bytes
  deriving DecidableEq, Repr

/-- Embeds sha512.New(): a hash object with an empty buffer. -/
def GoHash.new : GoHash := ⟨[]⟩

/-- Embeds hash.Hash.Write: append the bytes to the buffer. -/
def GoHash.write (h : GoHash) (b : Bytes) : GoHash := ⟨h.buf ++ b⟩

/-- Embeds hash.Hash.Sum with digest function sha: append the digest of
the written bytes to dest (the source passes value[:0], so the digest
lands at the start of the array). -/
def GoHash.sum (sha : Bytes → Bytes) (h : GoHash) (dest : Bytes) : Bytes :=
  dest ++ sha h.buf

/-- Embeds hash.Hash.Reset: forget the written bytes. -/
def GoHash.reset (_ : GoHash) : GoHash := ⟨[]⟩

/-- Embeds conn.go lines 183-191, the preauth-integrity update of the
SHA-512 branch: write the running 64-byte value and the request packet,
overwrite the value with the digest, reset, write the new value and the
response packet, and overwrite the value with the digest again. -/
def preauthNegotiateUpdate (sha : Bytes → Bytes)
    (hashValue reqPkt respPkt : Bytes) : Bytes :=
  let h := GoHash.new
  let h := h.write hashValue
  let h := h.write reqPkt
  let hashValue := GoHash.sum sha h (hashValue.take 0)
  let h := h.reset
  let h := h.write hashValue
  let h := h.write respPkt
  GoHash.sum sha h (hashValue.take 0)

/-- Embeds the negotiate-context loop of Negotiator.negotiate (conn.go
lines 159-226) over the decoded context list: a preauth-integrity
context must carry exactly one hash algorithm and it must be SHA-512,
upon which the preauth hash is updated over the request and response
packets; an encryption context must carry exactly one cipher and it
must be AES-128-CCM or AES-128-GCM; other context types are skipped. -/
def processContexts (sha : Bytes → Bytes) (reqPkt respPkt : Bytes) :
    ConnInfo → List RespContext → Except Err ConnInfo
  | conn, [] => .ok conn
  | conn, c :: rest =>
    match c with
    | .hash algs =>
      match algs with
      | [a] =>
        let conn := { conn with preauthIntegrityHashId := a }
        if a = SHA512 then
          let v := preauthNegotiateUpdate sha
            conn.preauthIntegrityHashValue reqPkt respPkt
          processContexts sha reqPkt respPkt
            { conn with preauthIntegrityHashValue := v } rest
        else .error (.invalidResponse "unknown hash algorithm")
      | _ => .error (.invalidResponse "multiple hash algorithms")
    | .cipher ciphs =>
      match ciphs with
      | [c] =>
        let conn := { conn with cipherId := c }
        if c = AES128CCM ∨ c = AES128GCM then
          processContexts sha reqPkt respPkt conn rest
        else .error (.invalidResponse "unknown cipher algorithm")
      | _ => .error (.invalidResponse "multiple cipher algorithms")
    | .other => processContexts sha reqPkt respPkt conn rest

/-- Embeds the retry loop of Negotiator.negotiate (conn.go lines
104-228). The transport is an oracle: the list of decoded responses the
server gives to successive requests (an exhausted list stands for a
transport failure of the exchange). Per iteration the source builds the
request via makeRequest, sets CreditCharge to one, sends it, and checks
the response: an invalid response fails; the wildcard dialect marker
re-enters the loop with SpecifiedDialect pinned to SMB 2.1; a response
disagreeing with a specified dialect fails; otherwise the connection
parameters are recorded, and only for dialect 3.1.1 the context list is
parsed. Returns the requests sent and the connection. -/
def negotiateLoop (sha : Bytes → Bytes) (encode : NegotiateRequest → Bytes)
    (clientCapabilities : Nat) (requireMessageSigning : Bool)
    (guid salt : Bytes) :
    Nat → List NegotiateResponse → List NegotiateRequest →
    Except Err (List NegotiateRequest × ConnInfo)
  | specifiedDialect, resps, sent =>
    match makeRequest requireMessageSigning specifiedDialect
        clientCapabilities guid salt with
    | .error e => .error e
    | .ok req0 =>
      let req := { req0 with creditCharge := 1 }
      match resps with
      | [] => .error .transport
      | r :: rest =>
        if r.valid = false then
          .error (.invalidResponse "broken negotiate response format")
        else if r.dialectRevision = SMB2 then
          negotiateLoop sha encode clientCapabilities requireMessageSigning
            guid salt SMB210 rest (sent ++ [req])
        else if specifiedDialect ≠ UnknownSMB
            ∧ specifiedDialect ≠ r.dialectRevision then
          .error (.invalidResponse "unexpected dialect returned")
        else
          let conn : ConnInfo :=
            { requireSigning := requireMessageSigning
                || (r.securityMode &&& SMB2_NEGOTIATE_SIGNING_REQUIRED != 0),
              capabilities := clientCapabilities &&& r.capabilities,
              dialect := r.dialectRevision,
              maxTransactSize := r.maxTransactSize,
              maxReadSize := r.maxReadSize,
              maxWriteSize := r.maxWriteSize,
              sequenceWindow := 1,
              preauthIntegrityHashId := 0,
              preauthIntegrityHashValue := List.replicate 64 0,
              cipherId := 0 }
          if r.dialectRevision ≠ SMB311 then .ok (sent ++ [req], conn)
          else
            match processContexts sha (encode req) r.raw conn r.contexts with
            | .error e => .error e
            | .ok conn => .ok (sent ++ [req], conn)

/-- Embeds Negotiator.negotiate, starting the retry loop from the
Negotiator SpecifiedDialect field with no request sent yet. -/
def negotiate (sha : Bytes → Bytes) (encode : NegotiateRequest → Bytes)
    (clientCapabilities : Nat) (requireMessageSigning : Bool)
    (guid salt : Bytes) (specifiedDialect : Nat)
    (resps : List NegotiateResponse) :
    Except Err (List NegotiateRequest × ConnInfo) :=
  negotiateLoop sha encode clientCapabilities requireMessageSigning
    guid salt specifiedDialect resps []

/-! Helper lemmas about the negotiator. -/

/-- The imperative hash sequence of the SHA-512 branch computes the
nested digest: the running value and the request hashed first, then
that digest and the response. -/
theorem preauthNegotiateUpdate_eq (sha : Bytes → Bytes)
    (v a b : Bytes) :
    preauthNegotiateUpdate sha v a b = sha (sha (v ++ a) ++ b) := rfl

/-- Inversion of a successful Except bind. -/
theorem except_bind_ok {α β : Type} (x : Except Err α) (f : α → Except Err β)
    (b : β) (h : x.bind f = .ok b) : ∃ a, x = .ok a ∧ f a = .ok b := by
  cases x with
  | error e => simp [Except.bind] at h
  | ok a => exact ⟨a, rfl, by simpa [Except.bind] using h⟩

/-- The context loop over an appended list runs the first part and
feeds its connection into the second. -/
theorem processContexts_append (sha : Bytes → Bytes) (a b : Bytes)
    (l1 l2 : List RespContext) :
    ∀ conn, processContexts sha a b conn (l1 ++ l2)
      = (processContexts sha a b conn l1).bind
          (fun c => processContexts sha a b c l2) := by
  induction l1 with
  | nil => intro conn; rfl
  | cons c rest ih =>
    intro conn
    cases c with
    | hash algs =>
      match algs with
      | [] => rfl
      | [x] =>
        by_cases hx : x = SHA512
        · simp only [List.cons_append, processContexts, hx, if_true]
          exact ih _
        · simp only [List.cons_append, processContexts, hx, if_false]
          rfl
      | x :: y :: t => rfl
    | cipher ciphs =>
      match ciphs with
      | [] => rfl
      | [x] =>
        by_cases hx : x = AES128CCM ∨ x = AES128GCM
        · simp only [List.cons_append, processContexts, hx, if_true]
          exact ih _
        · simp only [List.cons_append, processContexts, hx, if_false]
          rfl
      | x :: y :: t => rfl
    | other =>
      simp only [List.cons_append, processContexts]
      exact ih _

/-- A successful context loop over a list free of preauth-integrity
contexts leaves the preauth hash value untouched. -/
theorem processContexts_no_hash (sha : Bytes → Bytes) (a b : Bytes)
    (l : List RespContext) (hl : ∀ c ∈ l, c.isHash = false) :
    ∀ conn conn2, processContexts sha a b conn l = .ok conn2 →
      conn2.preauthIntegrityHashValue = conn.preauthIntegrityHashValue := by
  induction l with
  | nil =>
    intro conn conn2 h
    obtain rfl : conn = conn2 := by simpa [processContexts] using h
    rfl
  | cons c rest ih =>
    intro conn conn2 h
    have hc : c.isHash = false := hl c (List.mem_cons_self _ _)
    have hrest : ∀ x ∈ rest, x.isHash = false :=
      fun x hx => hl x (List.mem_cons_of_mem _ hx)
    cases c with
    | hash algs => simp [RespContext.isHash] at hc
    | cipher ciphs =>
      match ciphs with
      | [] => simp [processContexts] at h
      | [x] =>
        by_cases hx : x = AES128CCM ∨ x = AES128GCM
        · simp only [processContexts, hx, if_true] at h
          have hstep := ih hrest _ _ h
          exact hstep
        · simp only [processContexts, hx, if_false] at h
          cases h
      | x :: y :: t => simp [processContexts] at h
    | other =>
      simp only [processContexts] at h
      exact ih hrest _ _ h

/-! Helper lemmas about the send path. -/

/-- The sequence window after makeRequestResponse is the one computed
by the assignment block, whether or not packet construction failed. -/
theorem makeRequestResponse_window (st : MRRState) (env : SendEnv)
    (inp : SendInput) :
    (makeRequestResponse st env inp).1.sequenceWindow
      = (mrrAssign st env.opening inp).2.1 := by
  simp only [makeRequestResponse]
  split <;> rfl

/-- The message id returned by makeRequestResponse is the one computed
by the assignment block. -/
theorem makeRequestResponse_msgId (st : MRRState) (env : SendEnv)
    (inp : SendInput) :
    (makeRequestResponse st env inp).2.1 = (mrrAssign st env.opening inp).1 := by
  simp only [makeRequestResponse]
  split <;> rfl

/-- When makeRequestResponse returns a record, the record was inserted
into the outstanding table under the assigned message id. -/
theorem makeRequestResponse_ok_outstanding (st : MRRState) (env : SendEnv)
    (inp : SendInput) (rr : RequestResponse) :
    (makeRequestResponse st env inp).2.2 = .ok rr →
    (makeRequestResponse st env inp).1.outstanding
      = st.outstanding.set (mrrAssign st env.opening inp).1 rr := by
  simp only [makeRequestResponse]
  split
  · intro h; exact absurd h (by simp)
  · intro h
    obtain rfl : _ = rr := by
      simpa using h
    rfl

/-- The window component computed by the assignment block. -/
theorem mrrAssign_window (st : MRRState) (o : Nat) (inp : SendInput) :
    (mrrAssign st o inp).2.1
      = if inp.isCancel then st.sequenceWindow
        else (st.sequenceWindow + inp.header.creditCharge) % 2 ^ 64 := by
  cases hc : inp.isCancel <;> simp [mrrAssign, hc]

/-- The message id computed by the assignment block. -/
theorem mrrAssign_msgId (st : MRRState) (o : Nat) (inp : SendInput) :
    (mrrAssign st o inp).1
      = if inp.isCancel then 0 else st.sequenceWindow := by
  cases hc : inp.isCancel <;> simp [mrrAssign, hc]

/-! Claim C1: outstandingRequests.shutdown. -/

/-- A request record used by the concrete statements below. -/
def c1Record : RequestResponse :=
  { msgId := 5, asyncId := 0, creditRequest := 1, pkt := [],
    recvClosed := false, recvBuf := [], err := none }

/-- C1 counterexample: shutdown does not delete the entries of the
table, so the pop that follows a shutdown still finds the record for
message id 5; the claim that every subsequent pop returns absent is
false on this input. -/
theorem shutdown_pop_counterexample :
    ¬ ((OutstandingRequests.shutdown [(5, c1Record)] Err.transport).pop 5).1
        = none := by
  decide

/-- C1 (amended): shutdown stores err on every record of the table and
closes every result channel, but removes nothing, so the first
subsequent pop of a message id that was present returns that record,
with the error stored and the channel closed, rather than absent. -/
theorem shutdown_pop_present (r : OutstandingRequests) (e : Err)
    (msgId : Nat) (rr : RequestResponse)
    (h : List.lookup msgId r = some rr) :
    (∀ kv ∈ r.shutdown e, kv.2.err = some e ∧ kv.2.recvClosed = true)
    ∧ ((r.shutdown e).pop msgId).1
        = some { rr with err := some e, recvClosed := true } := by
  constructor
  · intro kv hkv
    simp only [OutstandingRequests.shutdown, List.mem_map] at hkv
    obtain ⟨kv0, _, rfl⟩ := hkv
    exact ⟨rfl, rfl⟩
  · simp [OutstandingRequests.pop, lookup_shutdown, h]

/-- C1 witness: the amended statement at a one-entry table. -/
theorem shutdown_pop_present_witness :
    (∀ kv ∈ OutstandingRequests.shutdown [(5, c1Record)] Err.transport,
        kv.2.err = some Err.transport ∧ kv.2.recvClosed = true)
    ∧ ((OutstandingRequests.shutdown [(5, c1Record)] Err.transport).pop 5).1
        = some { c1Record with err := some Err.transport, recvClosed := true } :=
  shutdown_pop_present [(5, c1Record)] Err.transport 5 c1Record (by decide)

/-! Claim C2: CancelRequest in makeRequestResponse. -/

/-- A send environment with no active session, trivial encode, sign and
encrypt, used by the concrete statements below. -/
def plainEnv : SendEnv :=
  { session := none, tc := none, opening := 0,
    encode := fun _ => [], sign := fun b => b, encrypt := fun b => .ok b }

/-- A CancelRequest input for the concrete statements below. -/
def cancelInput : SendInput :=
  { isCancel := true, isSessionSetup := false,
    header := { creditCharge := 1, creditRequestResponse := 0,
                messageId := 0, sessionId := 0, treeId := 0 } }

/-- C2 counterexample: sending a CancelRequest on a connection with an
empty outstanding table leaves the table nonempty, refuting the claim
that the record of a cancel is not entered in the table (conn.go
inserts every record unconditionally, a cancel under message id 0). -/
theorem cancel_request_table_counterexample :
    ¬ (makeRequestResponse ⟨7, []⟩ plainEnv cancelInput).1.outstanding = [] := by
  decide

/-- C2 (amended): for a CancelRequest, makeRequestResponse does not
advance the sequence window and consumes no new message id (the header
keeps message id 0), but the request record is entered in the
outstanding table under message id 0 whenever packet construction
succeeds. -/
theorem cancel_request_window_and_table (st : MRRState) (env : SendEnv)
    (inp : SendInput) (hc : inp.isCancel = true) :
    (makeRequestResponse st env inp).1.sequenceWindow = st.sequenceWindow
    ∧ (makeRequestResponse st env inp).2.1 = 0
    ∧ ∀ rr, (makeRequestResponse st env inp).2.2 = .ok rr →
        (makeRequestResponse st env inp).1.outstanding
          = st.outstanding.set 0 rr := by
  refine ⟨?_, ?_, ?_⟩
  · rw [makeRequestResponse_window, mrrAssign_window]
    simp [hc]
  · rw [makeRequestResponse_msgId, mrrAssign_msgId]
    simp [hc]
  · intro rr h
    rw [makeRequestResponse_ok_outstanding st env inp rr h, mrrAssign_msgId]
    simp [hc]

/-- C2 witness: the amended statement at a concrete cancel input. -/
theorem cancel_request_window_and_table_witness :
    (makeRequestResponse ⟨7, []⟩ plainEnv cancelInput).1.sequenceWindow = 7
    ∧ (makeRequestResponse ⟨7, []⟩ plainEnv cancelInput).2.1 = 0
    ∧ ∀ rr, (makeRequestResponse ⟨7, []⟩ plainEnv cancelInput).2.2 = .ok rr →
        (makeRequestResponse ⟨7, []⟩ plainEnv cancelInput).1.outstanding
          = OutstandingRequests.set [] 0 rr :=
  cancel_request_window_and_table ⟨7, []⟩ plainEnv cancelInput rfl

/-! Claim C3: the compound-chain split of the receiver. -/

/-- A 64-byte frame whose NextCommand field holds 100, exceeding the
64 remaining bytes. -/
def overflowFrame : Bytes :=
  List.replicate 20 0 ++ [100, 0, 0, 0] ++ List.replicate 40 0

/-- A 64-byte frame whose NextCommand field holds 64, exactly the
remaining length, which the claim says is the terminal entry. -/
def boundaryFrame : Bytes :=
  List.replicate 20 0 ++ [64, 0, 0, 0] ++ List.replicate 40 0

/-- C3: the split loop validates nothing. On a frame whose NextCommand
exceeds the remaining length the source evaluates pkt[off:] out of
range and the receiver goroutine panics (none), instead of rejecting
the offset; on a frame whose NextCommand equals the remaining length
the source continues into an empty element and panics on its header
read (none), instead of treating it as the terminal entry. -/
theorem splitChain_no_validation :
    splitChain overflowFrame = none ∧ splitChain boundaryFrame = none := by
  decide

/-! Claim C4: KerberosInitiator.sessionKey. -/

/-- C4: on an 8-byte underlying GSSAPI key, sessionKey panics (none)
because the source slices key[:16] before its padding loop, while its
own comment promises zero padding for short keys; a 16-byte key is
returned unchanged. -/
theorem sessionKey_short_key_panics :
    sessionKey (List.replicate 8 1) = none
    ∧ sessionKey (List.replicate 16 2) = some (List.replicate 16 2) := by
  decide

/-! Claim C7: conn.loanCredit. -/

/-- C7 counterexample: at payloadSize 2 ^ 32 the truncating uint16
conversion makes the requested charge 0, while the ceiling the claim
states is 65536 (and the claim also promises at least 1). -/
theorem loanCredit_charge_counterexample :
    requestedCreditCharge SMB2_GLOBAL_CAP_LARGE_MTU (2 ^ 32) = 0
    ∧ (2 ^ 32 + 65535) / 65536 = 65536 := by
  decide

/-- C7 (amended): on a large-MTU connection the requested charge is the
ceiling of payloadSize over 65536 reduced mod 2 ^ 16 (equal to the
plain ceiling, hence at least 1, whenever that ceiling is below 2 ^ 16);
a complete loan grants the full payload size, an incomplete loan grants
65536 times the granted credit count. -/
theorem loanCredit_charge_and_grant (caps p granted : Nat)
    (hcap : caps &&& SMB2_GLOBAL_CAP_LARGE_MTU ≠ 0) (hp : 1 ≤ p) :
    requestedCreditCharge caps p = ((p + 65535) / 65536) % 2 ^ 16
    ∧ loanCredit caps p (fun _ => .ok (granted, true)) = .ok (granted, p)
    ∧ loanCredit caps p (fun _ => .ok (granted, false))
        = .ok (granted, 65536 * granted) := by
  refine ⟨?_, ?_, ?_⟩
  · have hdiv := Nat.add_div_right (p - 1) (show 0 < 65536 by norm_num)
    have hone : p - 1 + 65536 = p + 65535 := by omega
    simp only [requestedCreditCharge, if_neg hcap]
    rw [← hdiv, hone]
  · simp [loanCredit]
  · simp [loanCredit]

/-- C7 witness: the spec scenario, a 1 MiB payload needing 16 credits
of which 4 are granted, yielding a granted payload size of 262144. -/
theorem loanCredit_charge_and_grant_witness :
    requestedCreditCharge SMB2_GLOBAL_CAP_LARGE_MTU (2 ^ 20)
        = ((2 ^ 20 + 65535) / 65536) % 2 ^ 16
    ∧ loanCredit SMB2_GLOBAL_CAP_LARGE_MTU (2 ^ 20) (fun _ => .ok (4, true))
        = .ok (4, 2 ^ 20)
    ∧ loanCredit SMB2_GLOBAL_CAP_LARGE_MTU (2 ^ 20) (fun _ => .ok (4, false))
        = .ok (4, 65536 * 4) :=
  loanCredit_charge_and_grant SMB2_GLOBAL_CAP_LARGE_MTU (2 ^ 20) 4
    (by decide) (by norm_num)

/-! Claim C8: credit charging in conn.tryHandle. -/

/-- A request record holding a 16-credit loan, for the concrete
statements below. -/
def c8Record : RequestResponse :=
  { msgId := 1, asyncId := 0, creditRequest := 16, pkt := [],
    recvClosed := false, recvBuf := [], err := none }

/-- A received reply for message id 1 granting 4 credits. -/
def c8Packet : InPacket :=
  { msgId := 1, flags := 0, sessionId := 0, status := 0,
    creditResponse := 4, asyncId := 0, raw := [] }

/-- A handle state whose table holds the record for message id 1. -/
def c8State : HandleState :=
  { outstanding := [(1, c8Record)], charges := [], delivered := [],
    failed := [] }

/-- C8 counterexample: a reply that reaches the record of message id 1
with a verify error closes the record without any account.charge call,
and tryHandle reports no error (the connection stays healthy), so the
loan of 16 credits is silently discarded; the claim that every dispatch
outcome reaching the record charges the loan back is false here. -/
theorem tryHandle_verify_error_counterexample :
    (tryHandle c8State c8Packet
        (some (Err.invalidResponse "unverified packet returned"))).1.charges = []
    ∧ (tryHandle c8State c8Packet
        (some (Err.invalidResponse "unverified packet returned"))).2 = none
    ∧ (tryHandle c8State c8Packet
        (some (Err.invalidResponse "unverified packet returned"))).1.failed
        = [(1, Err.invalidResponse "unverified packet returned")] := by
  decide

/-- C8 (amended): when a reply reaches the record, the STATUS_PENDING
and success outcomes charge the loan back to the account, but the
verify or framing-error outcome closes the record without charging,
while the connection stays healthy. -/
theorem tryHandle_charge_outcomes (st : HandleState) (p : InPacket)
    (e : Option Err) (rr : RequestResponse) (tbl : OutstandingRequests)
    (hpop : st.outstanding.pop p.msgId = (some rr, tbl)) :
    (e = none →
      (tryHandle st p e).1.charges
        = st.charges ++ [(p.creditResponse, rr.creditRequest)])
    ∧ (∀ err, e = some err →
        (tryHandle st p e).1.charges = st.charges
        ∧ (tryHandle st p e).2 = none) := by
  constructor
  · intro he
    subst he
    simp only [tryHandle, hpop]
    split <;> rfl
  · intro err he
    subst he
    simp [tryHandle, hpop]

/-- C8 witness: the amended statement at a concrete pending-free reply
with no verify error, showing the charge of the granted 4 against the
requested 16. -/
theorem tryHandle_charge_outcomes_witness :
    ((none : Option Err) = none →
      (tryHandle c8State c8Packet none).1.charges = [] ++ [(4, 16)])
    ∧ (∀ err, (none : Option Err) = some err →
        (tryHandle c8State c8Packet none).1.charges = []
        ∧ (tryHandle c8State c8Packet none).2 = none) :=
  tryHandle_charge_outcomes c8State c8Packet none c8Record [] (by decide)

/-! Claim C6: sequence-window arithmetic over a run of sends. -/

/-- The sequence window after a run of sends is the initial window plus
the non-cancel credit charges, in uint64 arithmetic. -/
theorem sendRun_window (env : SendEnv) (reqs : List SendInput) :
    ∀ st : MRRState, st.sequenceWindow < 2 ^ 64 →
      (sendRun st env reqs).1.sequenceWindow
        = (st.sequenceWindow + nonCancelCharges reqs) % 2 ^ 64 := by
  induction reqs with
  | nil =>
    intro st h
    simp only [sendRun, nonCancelCharges]
    omega
  | cons inp rest ih =>
    intro st h
    simp only [sendRun]
    cases hc : inp.isCancel
    case false =>
      have hw : (makeRequestResponse st env inp).1.sequenceWindow
          = (st.sequenceWindow + inp.header.creditCharge) % 2 ^ 64 := by
        rw [makeRequestResponse_window, mrrAssign_window]
        simp [hc]
      have hlt : (makeRequestResponse st env inp).1.sequenceWindow < 2 ^ 64 := by
        rw [hw]; exact Nat.mod_lt _ (by norm_num)
      rw [ih _ hlt, hw, Nat.mod_add_mod, nonCancelCharges]
      simp [hc, Nat.add_assoc]
    case true =>
      have hw : (makeRequestResponse st env inp).1.sequenceWindow
          = st.sequenceWindow := by
        rw [makeRequestResponse_window, mrrAssign_window]
        simp [hc]
      rw [ih _ (by rw [hw]; exact h), hw, nonCancelCharges]
      simp [hc]

/-- Every message id assigned to a non-cancel request of a run is at
least the initial window, provided the window total never overflows. -/
theorem sendRun_ids_ge (env : SendEnv) (reqs : List SendInput) :
    ∀ st : MRRState, st.sequenceWindow + nonCancelCharges reqs < 2 ^ 64 →
      ∀ x ∈ nonCancelIds (sendRun st env reqs).2, st.sequenceWindow ≤ x := by
  induction reqs with
  | nil =>
    intro st _ x hx
    simp [sendRun, nonCancelIds] at hx
  | cons inp rest ih =>
    intro st h x hx
    rw [nonCancelCharges] at h
    simp only [sendRun] at hx
    rw [nonCancelIds] at hx
    cases hc : inp.isCancel
    case false =>
      simp only [hc] at h hx
      simp only [Bool.false_eq_true, if_false, List.mem_cons] at h hx
      have hw : (makeRequestResponse st env inp).1.sequenceWindow
          = st.sequenceWindow + inp.header.creditCharge := by
        rw [makeRequestResponse_window, mrrAssign_window]
        simp only [hc, Bool.false_eq_true, if_false]
        exact Nat.mod_eq_of_lt (by omega)
      rw [makeRequestResponse_msgId, mrrAssign_msgId] at hx
      simp only [hc, Bool.false_eq_true, if_false] at hx
      rcases hx with rfl | hx
      · exact le_refl _
      · have := ih (makeRequestResponse st env inp).1
          (by rw [hw]; omega) x hx
        rw [hw] at this
        omega
    case true =>
      simp only [hc, if_true] at h hx
      have hw : (makeRequestResponse st env inp).1.sequenceWindow
          = st.sequenceWindow := by
        rw [makeRequestResponse_window, mrrAssign_window]
        simp [hc]
      have := ih (makeRequestResponse st env inp).1 (by rw [hw]; omega) x hx
      rw [hw] at this
      exact this

/-- The non-cancel message ids of a run are strictly increasing when
every non-cancel request carries a positive credit charge and the
window total never overflows. -/
theorem sendRun_chain (env : SendEnv) (reqs : List SendInput) :
    ∀ st : MRRState, st.sequenceWindow + nonCancelCharges reqs < 2 ^ 64 →
      (∀ i ∈ reqs, i.isCancel = false → 1 ≤ i.header.creditCharge) →
      List.Chain' (· < ·) (nonCancelIds (sendRun st env reqs).2) := by
  induction reqs with
  | nil =>
    intro st _ _
    simp [sendRun, nonCancelIds]
  | cons inp rest ih =>
    intro st h hC
    rw [nonCancelCharges] at h
    simp only [sendRun]
    rw [nonCancelIds]
    cases hc : inp.isCancel
    case false =>
      have hcc : 1 ≤ inp.header.creditCharge :=
        hC inp (List.mem_cons_self _ _) hc
      simp only [hc, Bool.false_eq_true, if_false] at h ⊢
      have hw : (makeRequestResponse st env inp).1.sequenceWindow
          = st.sequenceWindow + inp.header.creditCharge := by
        rw [makeRequestResponse_window, mrrAssign_window]
        simp only [hc, Bool.false_eq_true, if_false]
        exact Nat.mod_eq_of_lt (by omega)
      rw [makeRequestResponse_msgId, mrrAssign_msgId]
      simp only [hc, Bool.false_eq_true, if_false]
      rw [List.chain'_cons']
      constructor
      · intro y hy
        have hy2 := List.mem_of_mem_head? hy
        have := sendRun_ids_ge env rest (makeRequestResponse st env inp).1
          (by rw [hw]; omega) y hy2
        rw [hw] at this
        omega
      · exact ih (makeRequestResponse st env inp).1 (by rw [hw]; omega)
          (fun i hi => hC i (List.mem_cons_of_mem _ hi))
    case true =>
      simp only [hc, if_true] at h ⊢
      have hw : (makeRequestResponse st env inp).1.sequenceWindow
          = st.sequenceWindow := by
        rw [makeRequestResponse_window, mrrAssign_window]
        simp [hc]
      exact ih (makeRequestResponse st env inp).1 (by rw [hw]; omega)
        (fun i hi => hC i (List.mem_cons_of_mem _ hi))

/-- A non-cancel request with credit charge zero, for the concrete
statements below. -/
def zeroChargeInput : SendInput :=
  { isCancel := false, isSessionSetup := false,
    header := { creditCharge := 0, creditRequestResponse := 0,
                messageId := 0, sessionId := 0, treeId := 0 } }

/-- C6 counterexample: two consecutive non-cancel requests with credit
charge zero receive the same message id (the window does not move), so
the assigned ids are not strictly increasing, refuting the claim as
stated for arbitrary send sequences. -/
theorem sendRun_monotonic_counterexample :
    ¬ List.Chain' (· < ·)
        (nonCancelIds
          (sendRun ⟨1, []⟩ plainEnv [zeroChargeInput, zeroChargeInput]).2) := by
  have h : nonCancelIds
      (sendRun ⟨1, []⟩ plainEnv [zeroChargeInput, zeroChargeInput]).2
      = [1, 1] := by decide
  rw [h]
  simp [List.chain'_cons]

/-- C6 (amended): over any send sequence whose non-cancel requests all
carry a credit charge of at least one and whose window total stays
below 2 ^ 64, the assigned non-cancel message ids are strictly
increasing and the final sequence window is the initial one plus the
sum of the non-cancel credit charges (in general uint64 arithmetic the
sum holds mod 2 ^ 64, and a zero-charge request repeats a message id). -/
theorem sendRun_window_sum_monotonic (st : MRRState) (env : SendEnv)
    (reqs : List SendInput)
    (hW : st.sequenceWindow + nonCancelCharges reqs < 2 ^ 64)
    (hC : ∀ i ∈ reqs, i.isCancel = false → 1 ≤ i.header.creditCharge) :
    (sendRun st env reqs).1.sequenceWindow
        = st.sequenceWindow + nonCancelCharges reqs
    ∧ List.Chain' (· < ·) (nonCancelIds (sendRun st env reqs).2) := by
  constructor
  · rw [sendRun_window env reqs st (by omega)]
    exact Nat.mod_eq_of_lt hW
  · exact sendRun_chain env reqs st hW hC

/-- Requests used by the C6 witness: charges 2, a cancel, then 1. -/
def creditReqs : List SendInput :=
  [{ isCancel := false, isSessionSetup := false,
     header := { creditCharge := 2, creditRequestResponse := 0,
                 messageId := 0, sessionId := 0, treeId := 0 } },
   { isCancel := true, isSessionSetup := false,
     header := { creditCharge := 5, creditRequestResponse := 0,
                 messageId := 0, sessionId := 0, treeId := 0 } },
   { isCancel := false, isSessionSetup := false,
     header := { creditCharge := 1, creditRequestResponse := 0,
                 messageId := 0, sessionId := 0, treeId := 0 } }]

/-- C6 witness: the amended statement on a concrete run of three sends
starting at window 1. -/
theorem sendRun_window_sum_monotonic_witness :
    (sendRun ⟨1, []⟩ plainEnv creditReqs).1.sequenceWindow
        = 1 + nonCancelCharges creditReqs
    ∧ List.Chain' (· < ·) (nonCancelIds (sendRun ⟨1, []⟩ plainEnv creditReqs).2) :=
  sendRun_window_sum_monotonic ⟨1, []⟩ plainEnv creditReqs (by decide)
    (by decide)

/-! Claim C9: the wildcard dialect retry of Negotiator.negotiate. -/

/-- C9: when the first response carries the wildcard SMB 2.0 dialect
marker 0x02FF, negotiate re-issues the negotiation pinned to the single
dialect SMB 2.1 (0x0210); when the retry succeeds with dialect 0x0210
the connection records that dialect, and the SMB 3.1.1 negotiate
contexts of the response, whatever they hold, are never parsed: the
preauth-integrity fields and the cipher id keep their zero values. -/
theorem negotiate_wildcard_retry (sha : Bytes → Bytes)
    (encode : NegotiateRequest → Bytes) (caps : Nat) (rms : Bool)
    (guid salt : Bytes) (wsm wc wmt wmr wmw : Nat)
    (wctxs : List RespContext) (wraw : Bytes)
    (sm c2 mt mr mw : Nat) (ctxs : List RespContext) (raw : Bytes) :
    ∃ sent conn,
      negotiate sha encode caps rms guid salt UnknownSMB
        [{ valid := true, dialectRevision := SMB2, securityMode := wsm,
           capabilities := wc, maxTransactSize := wmt, maxReadSize := wmr,
           maxWriteSize := wmw, contexts := wctxs, raw := wraw },
         { valid := true, dialectRevision := SMB210, securityMode := sm,
           capabilities := c2, maxTransactSize := mt, maxReadSize := mr,
           maxWriteSize := mw, contexts := ctxs, raw := raw }]
        = .ok (sent, conn)
      ∧ sent.map NegotiateRequest.dialects = [clientDialects, [SMB210]]
      ∧ conn.dialect = SMB210
      ∧ conn.preauthIntegrityHashId = 0
      ∧ conn.preauthIntegrityHashValue = List.replicate 64 0
      ∧ conn.cipherId = 0 := by
  refine ⟨[{ securityMode := if rms then SMB2_NEGOTIATE_SIGNING_REQUIRED
               else SMB2_NEGOTIATE_SIGNING_ENABLED,
             capabilities := caps, clientGuid := guid,
             dialects := clientDialects,
             contexts := [.hash clientHashAlgorithms salt,
                          .cipher clientCiphers],
             creditCharge := 1 },
           { securityMode := if rms then SMB2_NEGOTIATE_SIGNING_REQUIRED
               else SMB2_NEGOTIATE_SIGNING_ENABLED,
             capabilities := caps, clientGuid := guid,
             dialects := [SMB210], contexts := [], creditCharge := 1 }],
         { requireSigning := rms
             || (sm &&& SMB2_NEGOTIATE_SIGNING_REQUIRED != 0),
           capabilities := caps &&& c2, dialect := SMB210,
           maxTransactSize := mt, maxReadSize := mr, maxWriteSize := mw,
           sequenceWindow := 1, preauthIntegrityHashId := 0,
           preauthIntegrityHashValue := List.replicate 64 0, cipherId := 0 },
         ?_, rfl, rfl, rfl, rfl, rfl⟩
  rfl

/-! Claim C5: the preauth-integrity hash after a 3.1.1 negotiation. -/

/-- C5: after a successful SMB 3.1.1 negotiation whose response carries
one preauth-integrity context with hash algorithm SHA-512 (and any
other non-hash contexts around it), the preauth hash value of the
connection is the 64-byte nested digest of the 64 zero bytes, the
encoded negotiate request and the response bytes. -/
theorem negotiate_preauth_hash (sha : Bytes → Bytes)
    (encode : NegotiateRequest → Bytes) (caps : Nat) (rms : Bool)
    (guid salt : Bytes) (spec : Nat) (sm c2 mt mr mw : Nat) (raw : Bytes)
    (pre post : List RespContext)
    (hpre : ∀ c ∈ pre, c.isHash = false)
    (hpost : ∀ c ∈ post, c.isHash = false)
    (sent : List NegotiateRequest) (conn : ConnInfo)
    (hok : negotiate sha encode caps rms guid salt spec
        [{ valid := true, dialectRevision := SMB311, securityMode := sm,
           capabilities := c2, maxTransactSize := mt, maxReadSize := mr,
           maxWriteSize := mw, contexts := pre ++ .hash [SHA512] :: post,
           raw := raw }] = .ok (sent, conn))
    (hsha : ∀ bs, (sha bs).length = 64) :
    ∃ req, sent = [req]
      ∧ conn.preauthIntegrityHashValue
          = sha (sha (List.replicate 64 0 ++ encode req) ++ raw)
      ∧ conn.preauthIntegrityHashValue.length = 64 := by
  simp only [negotiate, negotiateLoop] at hok
  cases hmk : makeRequest rms spec caps guid salt with
  | error e =>
    rw [hmk] at hok
    simp at hok
  | ok req0 =>
    rw [hmk] at hok
    simp at hok
    rw [processContexts_append] at hok
    split at hok
    · simp at hok
    · split at hok
      · simp at hok
      · split at hok
        · simp at hok
        · rename_i cX heq
          simp only [Except.ok.injEq, Prod.mk.injEq] at hok
          obtain ⟨hsent, hconn⟩ := hok
          obtain ⟨c1, hb, hf⟩ := except_bind_ok _ _ _ heq
          simp [processContexts] at hf
          have h2 := processContexts_no_hash sha _ raw post hpost _ _ hf
          have h1 := processContexts_no_hash sha _ raw pre hpre _ _ hb
          have h2e : cX.preauthIntegrityHashValue
              = preauthNegotiateUpdate sha c1.preauthIntegrityHashValue
                  (encode { req0 with creditCharge := 1 }) raw := h2
          have h1e : c1.preauthIntegrityHashValue = List.replicate 64 0 := h1
          refine ⟨{ req0 with creditCharge := 1 }, hsent.symm, ?_, ?_⟩
          · rw [← hconn, h2e, h1e, preauthNegotiateUpdate_eq]
          · rw [← hconn, h2e, preauthNegotiateUpdate_eq]
            exact hsha _

/-- The constant digest function used by the C5 witness. -/
def c5WSha : Bytes → Bytes := fun _ => List.replicate 64 0

/-- The trivial encoder used by the C5 witness. -/
def c5WEnc : NegotiateRequest → Bytes := fun _ => []

/-- The request that the C5 witness negotiention sends. -/
def c5WReq : NegotiateRequest :=
  { securityMode := SMB2_NEGOTIATE_SIGNING_ENABLED, capabilities := 0,
    clientGuid := [], dialects := clientDialects,
    contexts := [.hash clientHashAlgorithms [], .cipher clientCiphers],
    creditCharge := 1 }

/-- The connection that the C5 witness negotiation produces. -/
def c5WConn : ConnInfo :=
  { requireSigning := false, capabilities := 0, dialect := SMB311,
    maxTransactSize := 0, maxReadSize := 0, maxWriteSize := 0,
    sequenceWindow := 1, preauthIntegrityHashId := SHA512,
    preauthIntegrityHashValue := List.replicate 64 0,
    cipherId := AES128CCM }

/-- C5 witness: the statement at a concrete 3.1.1 negotiation with the
SHA-512 context followed by an AES-128-CCM cipher context. -/
theorem negotiate_preauth_hash_witness :
    ∃ req, [c5WReq] = [req]
      ∧ c5WConn.preauthIntegrityHashValue
          = c5WSha (c5WSha (List.replicate 64 0 ++ c5WEnc req) ++ [])
      ∧ c5WConn.preauthIntegrityHashValue.length = 64 :=
  negotiate_preauth_hash c5WSha c5WEnc 0 false [] [] 0 0 0 0 0 0 []
    [] [.cipher [AES128CCM]] (by simp) (by decide) [c5WReq] c5WConn
    (by rfl) (fun bs => by simp [c5WSha])

/-! Claim C10: conn.tryVerify on the wildcard message id. -/

/-- C10: a packet whose message id is 0xFFFFFFFFFFFFFFFF passes
tryVerify with no error regardless of the session, the signing
requirement, the packet flags, the signature check outcome and the
encryption state. -/
theorem tryVerify_wildcard_msgid (session : Option SendSession)
    (requireSigning : Bool) (p : InPacket) (verifies isEncrypted : Bool)
    (h : p.msgId = 0xFFFFFFFFFFFFFFFF) :
    tryVerify session requireSigning p verifies isEncrypted = none := by
  simp [tryVerify, h]

/-- C10 witness: a signed packet with a mismatched session id and a
failing signature check on a signing-required connection is still
accepted when its message id is the wildcard. -/
theorem tryVerify_wildcard_msgid_witness :
    tryVerify (some ⟨1, 0⟩) true
      { msgId := 0xFFFFFFFFFFFFFFFF, flags := 8, sessionId := 99,
        status := 0, creditResponse := 0, asyncId := 0, raw := [] }
      false false = none :=
  tryVerify_wildcard_msgid (some ⟨1, 0⟩) true
    { msgId := 0xFFFFFFFFFFFFFFFF, flags := 8, sessionId := 99,
      status := 0, creditResponse := 0, asyncId := 0, raw := [] }
    false false rfl

end Smb2
